import Mathlib

/-!
Verification of the resumable fan-out batch engine of the auto-video-pipeline
repository (tts_piper, rvc batch inference, weekly JSON parsing).

The Python sources under auto-video-pipeline/ are shallowly embedded below:
pure string manipulation is translated directly; the filesystem is modelled as
explicit lists of names and contents; external effects (network retrieval,
child-process invocation) are modelled by oracle functions supplied as
parameters, with one oracle call corresponding to one external interaction in
the source.
-/

namespace AVP

/-- Embedding of Python str.strip(): drop whitespace from both ends.
(Whitespace is modelled by Char.isWhitespace, covering the space, tab,
carriage-return and newline characters that occur in the pipeline texts.) -/
def pyStrip (s : String) : String :=
  String.mk (((s.data.dropWhile Char.isWhitespace).reverse.dropWhile
    Char.isWhitespace).reverse)

/-- List-level prefix test: does the first list lead the second? -/
def listLeads : List Char → List Char → Bool
  | [], _ => true
  | _ :: _, [] => false
  | a :: as, b :: bs => a == b && listLeads as bs

/-- Embedding of Python s.startswith(pat). -/
def strStarts (pat s : String) : Bool := listLeads pat.data s.data

/-- Embedding of Python s.endswith(pat). -/
def strEnds (pat s : String) : Bool := listLeads pat.data.reverse s.data.reverse

/-- Ledger loading shared by tts_piper_weekly.py (lines 87-92),
tts_piper_addon.py, rvc_batch_infer_weekly.py, rvc_batch_infer_addon.py and
rvc_batch_infer.py: every line of the ledger file is stripped, and stripped
lines that are nonempty and do not start with "#" enter the processed set. -/
def loadProcessed (lines : List String) : List String :=
  (lines.map pyStrip).filter (fun s => !(s == "") && !strStarts "#" s)

/-- Ledger loading of parse_week_json.py main (lines 290-292):
processed = the set of stripped lines that are nonempty.  Lines beginning
with "#" are NOT excluded by this variant. -/
def loadProcessedParsing (lines : List String) : List String :=
  (lines.map pyStrip).filter (fun s => !(s == ""))

/-- C8 counterexample: the parsing-stage ledger loader keeps a comment line.
The claim states that every comment line is excluded from the membership test
in every stage variant, but loadProcessedParsing (parse_week_json.py line 292)
filters only empty lines, so a line beginning with "#" is a member. -/
theorem c8_counterexample :
    "#2025Week38.json" ∈ loadProcessedParsing ["#2025Week38.json"] := by
  decide

/-- C8 (amended): the TTS/RVC ledger loaders keep exactly the stripped
nonempty lines that do not begin with "#"; the parsing-stage loader keeps
exactly the stripped nonempty lines, including comment lines. -/
theorem c8_ledger_read_semantics :
    (∀ lines s, s ∈ loadProcessed lines ↔
      ∃ l, l ∈ lines ∧ pyStrip l = s ∧ s ≠ "" ∧ strStarts "#" s = false) ∧
    (∀ lines s, s ∈ loadProcessedParsing lines ↔
      ∃ l, l ∈ lines ∧ pyStrip l = s ∧ s ≠ "") := by
  constructor <;> intro lines s <;>
    simp only [loadProcessed, loadProcessedParsing, List.mem_filter, List.mem_map,
      Bool.and_eq_true, Bool.not_eq_true', beq_eq_false_iff_ne] <;>
    constructor
  · rintro ⟨⟨l, hl, rfl⟩, h1, h2⟩; exact ⟨l, hl, rfl, h1, h2⟩
  · rintro ⟨l, hl, rfl, h1, h2⟩; exact ⟨⟨l, hl, rfl⟩, h1, h2⟩
  · rintro ⟨⟨l, hl, rfl⟩, h1⟩; exact ⟨l, hl, rfl, h1⟩
  · rintro ⟨l, hl, rfl, h1⟩; exact ⟨⟨l, hl, rfl⟩, h1⟩

/-- C8 witness: evaluating the amended characterization on a concrete ledger. -/
theorem c8_witness :
    "k1" ∈ loadProcessed ["# done earlier", "  k1  ", ""] ∧
    "# done earlier" ∉ loadProcessed ["# done earlier"] :=
  ⟨(c8_ledger_read_semantics.1 ["# done earlier", "  k1  ", ""] "k1").mpr
      ⟨"  k1  ", by decide, by decide, by decide, by decide⟩,
    by decide⟩

/-- Matcher for one glob pattern of the shape "*SUF": a directory entry
matches when its name ends with SUF.  Every pattern passed to gather_files in
the repository has this shape: tts_piper_weekly.py builds f"*{ext}" from
TEXT_EXTS, and the RVC scripts pass RVC_WAV_GLOBS defaulting to
"*.wav,*.WAV".  The argument is the pattern with the leading star removed. -/
def globSuffix (suf nm : String) : Bool := strEnds suf nm

/-- Lexicographic comparison of character lists by code point, embedding the
string comparison Python sorted() uses. -/
def listCharLe : List Char → List Char → Bool
  | [], _ => true
  | _ :: _, [] => false
  | a :: as, b :: bs =>
    if a.toNat < b.toNat then true
    else if b.toNat < a.toNat then false
    else listCharLe as bs

/-- Lexicographic string order by code point (the order of Python sorted). -/
def strLe (a b : String) : Bool := listCharLe a.data b.data

/-- The string order as a relation, for use with sorting. -/
def strLeProp (a b : String) : Prop := strLe a b = true

instance : DecidableRel strLeProp := fun a b => Bool.decEq (strLe a b) true

theorem listCharLe_total : ∀ xs ys, listCharLe xs ys = true ∨ listCharLe ys xs = true
  | [], _ => Or.inl rfl
  | _ :: _, [] => Or.inr rfl
  | a :: as, b :: bs => by
    rcases Nat.lt_trichotomy a.toNat b.toNat with h | h | h
    · left; simp [listCharLe, h]
    · rcases listCharLe_total as bs with ht | ht
      · left; simp [listCharLe, h, ht]
      · right; simp [listCharLe, h.symm, ht]
    · right; simp [listCharLe, h]

theorem listCharLe_trans : ∀ xs ys zs, listCharLe xs ys = true →
    listCharLe ys zs = true → listCharLe xs zs = true
  | [], _, _, _, _ => rfl
  | _ :: _, [], _, h1, _ => by simp [listCharLe] at h1
  | _ :: _, _ :: _, [], _, h2 => by simp [listCharLe] at h2
  | a :: as, b :: bs, c :: cs, h1, h2 => by
    rcases Nat.lt_trichotomy a.toNat b.toNat with hab | hab | hab
    · rcases Nat.lt_trichotomy b.toNat c.toNat with hbc | hbc | hbc
      · simp [listCharLe, Nat.lt_trans hab hbc]
      · have hac : a.toNat < c.toNat := hbc ▸ hab
        simp [listCharLe, hac]
      · simp [listCharLe, hbc, Nat.lt_asymm hbc] at h2
    · rcases Nat.lt_trichotomy b.toNat c.toNat with hbc | hbc | hbc
      · have hac : a.toNat < c.toNat := hab.symm ▸ hbc
        simp [listCharLe, hac]
      · have hac : a.toNat = c.toNat := hab.trans hbc
        simp [listCharLe, hab, Nat.lt_irrefl] at h1
        simp [listCharLe, hbc, Nat.lt_irrefl] at h2
        simp [listCharLe, hac, Nat.lt_irrefl, listCharLe_trans as bs cs h1 h2]
      · simp [listCharLe, hbc, Nat.lt_asymm hbc] at h2
    · simp [listCharLe, hab, Nat.lt_asymm hab] at h1

theorem listCharLe_antisymm : ∀ xs ys, listCharLe xs ys = true →
    listCharLe ys xs = true → xs = ys
  | [], [], _, _ => rfl
  | [], _ :: _, _, h2 => by simp [listCharLe] at h2
  | _ :: _, [], h1, _ => by simp [listCharLe] at h1
  | a :: as, b :: bs, h1, h2 => by
    rcases Nat.lt_trichotomy a.toNat b.toNat with hab | hab | hab
    · simp [listCharLe, hab, Nat.lt_asymm hab] at h2
    · have ha : a = b := Char.eq_of_val_eq (UInt32.toNat.inj hab)
      simp [listCharLe, hab, Nat.lt_irrefl] at h1
      simp [listCharLe, hab.symm, Nat.lt_irrefl] at h2
      rw [ha, listCharLe_antisymm as bs h1 h2]
    · simp [listCharLe, hab, Nat.lt_asymm hab] at h1

instance : IsTotal String strLeProp :=
  ⟨fun a b => listCharLe_total a.data b.data⟩

instance : IsTrans String strLeProp :=
  ⟨fun a b c => listCharLe_trans a.data b.data c.data⟩

instance : IsAntisymm String strLeProp :=
  ⟨fun a b h1 h2 => by
    cases a; cases b
    exact congrArg String.mk (listCharLe_antisymm _ _ h1 h2)⟩

/-- Embedding of gather_files (tts_piper_weekly.py lines 43-47,
rvc_batch_infer_weekly.py lines 39-43): out accumulates folder.glob(pattern)
for each pattern in order, and the result is sorted(set(out)).  The folder is
modelled by its listing and each pattern by its suffix. -/
def gatherFiles (folder : List String) (pats : List String) : List String :=
  List.insertionSort strLeProp
    ((pats.map (fun p => folder.filter (globSuffix p))).flatten).dedup

/-- Membership in gatherFiles: a name occurs iff it is in the folder and
matches one of the patterns. -/
theorem mem_gatherFiles (folder pats : List String) (a : String) :
    a ∈ gatherFiles folder pats ↔
      ∃ p, p ∈ pats ∧ (a ∈ folder ∧ globSuffix p a = true) := by
  unfold gatherFiles
  rw [List.mem_insertionSort, List.mem_dedup]
  simp only [List.mem_flatten, List.mem_map]
  constructor
  · rintro ⟨l, ⟨p, hp, rfl⟩, ha⟩
    exact ⟨p, hp, List.mem_filter.mp ha⟩
  · rintro ⟨p, hp, ha⟩
    exact ⟨folder.filter (globSuffix p), ⟨p, hp, rfl⟩, List.mem_filter.mpr ha⟩

/-- C9: gather_files returns a sorted, duplicate-free list, and the result
does not depend on the order in which the patterns are supplied. -/
theorem c9_gather_files_deterministic :
    (∀ folder pats : List String,
      (gatherFiles folder pats).Sorted strLeProp ∧ (gatherFiles folder pats).Nodup) ∧
    (∀ folder pats pats2 : List String, List.Perm pats pats2 →
      gatherFiles folder pats = gatherFiles folder pats2) := by
  have hsorted : ∀ folder pats : List String,
      (gatherFiles folder pats).Sorted strLeProp := fun folder pats =>
    List.sorted_insertionSort _ _
  have hnodup : ∀ folder pats : List String, (gatherFiles folder pats).Nodup :=
    fun folder pats =>
      (List.perm_insertionSort strLeProp _).nodup_iff.mpr (List.nodup_dedup _)
  refine ⟨fun folder pats => ⟨hsorted folder pats, hnodup folder pats⟩,
    fun folder pats pats2 hp => ?_⟩
  refine List.eq_of_perm_of_sorted ?_ (hsorted folder pats) (hsorted folder pats2)
  refine (List.perm_ext_iff_of_nodup (hnodup folder pats) (hnodup folder pats2)).mpr
    fun a => ?_
  rw [mem_gatherFiles, mem_gatherFiles]
  constructor
  · rintro ⟨p, hmem, h⟩; exact ⟨p, hp.mem_iff.mp hmem, h⟩
  · rintro ⟨p, hmem, h⟩; exact ⟨p, hp.mem_iff.mpr hmem, h⟩

/-- C9 witness: a concrete folder, with a duplicate-producing overlap of
patterns, gathered under two pattern orders. -/
theorem c9_witness :
    gatherFiles ["b.wav", "a.txt", "c.txt"] [".txt", ".wav"] =
      gatherFiles ["b.wav", "a.txt", "c.txt"] [".wav", ".txt"] ∧
    gatherFiles ["b.wav", "a.txt", "c.txt"] [".txt", ".wav"] =
      ["a.txt", "b.wav", "c.txt"] :=
  ⟨c9_gather_files_deterministic.2 ["b.wav", "a.txt", "c.txt"]
      [".txt", ".wav"] [".wav", ".txt"] (by decide),
    by decide⟩

/-- Longest digit run at the front of a character list. -/
def takeDigits : List Char → List Char
  | c :: cs => if c.isDigit then c :: takeDigits cs else []
  | [] => []

/-- Numeric value of a digit run. -/
def digitsToNat (cs : List Char) : Nat :=
  cs.foldl (fun a c => a * 10 + (c.toNat - 48)) 0

/-- First match of the regular expression search for _e(\d+) used by
pick_latest_ckpt: scan for the first occurrence of an underscore followed by
the letter e and at least one digit, and return the value of the maximal
digit run there. -/
def eScore : List Char → Option Nat
  | '_' :: 'e' :: c :: cs =>
    if c.isDigit then some (digitsToNat (c :: takeDigits cs))
    else eScore ('e' :: c :: cs)
  | _ :: cs => eScore cs
  | [] => none

/-- Score of a checkpoint filename (rvc_batch_infer_weekly.py lines 50-51):
the _e<digits> value, or -1 when the name has no such match. -/
def ckptScore (nm : String) : Int :=
  match eScore nm.data with
  | some n => (n : Int)
  | none => -1

/-- Match of the glob pattern built from f-string pfx followed by "*.pth"
against a filename: the name starts with pfx, ends with ".pth", and is long
enough that the two parts do not overlap.  (Glob metacharacters inside the
configured prefixes are not modelled; the prefixes used are literal.) -/
def globCkpt (pfx nm : String) : Bool :=
  strStarts pfx nm && strEnds ".pth" nm &&
    decide (pfx.data.length + 4 ≤ nm.data.length)

/-- Embedding of pick_latest_ckpt (rvc_batch_infer_weekly.py lines 45-54,
identical in rvc_batch_infer_addon.py and rvc_batch_infer.py): fold over the
files matching the prefixed ".pth" glob, keeping the first file with the
strictly greatest score.  A missing candidate directory is modelled by an
empty listing. -/
def pickStep (best : Option (Int × String)) (p : String) : Option (Int × String) :=
  match best with
  | none => some (ckptScore p, p)
  | some b => if ckptScore p > b.1 then some (ckptScore p, p) else some b

/-- The fold of pick_latest_ckpt over the glob-matched candidates, keeping
the first file with the strictly greatest score, then dropping the score. -/
def pickLatestCkpt (files : List String) (pfx : String) : Option String :=
  ((files.filter (globCkpt pfx)).foldl pickStep none).map (fun b => b.2)

/-- Embedding of the checkpoint choice in main (rvc_batch_infer_weekly.py
line 91): pick with the configured prefix, falling back to an unprefixed pick
when that yields nothing. -/
def ckptSelect (files : List String) (pfx : String) : Option String :=
  match pickLatestCkpt files pfx with
  | some c => some c
  | none => pickLatestCkpt files ""

/-- Embedding of Python Path(name).stem: the name with its last dot-suffix
removed (a leading dot alone is not a suffix).  The checkpoint names passed
to it contain no directory separators. -/
def pathStem (nm : String) : String :=
  match nm.data.reverse.dropWhile (fun c => !(c == '.')) with
  | [] => nm
  | _ :: [] => nm
  | _ :: rest => String.mk rest.reverse

/-- Result of the per-group orchestrator body: how many external invocations
were issued, which output artifacts were written (group key × file name) and
which lines were appended to the ledger. -/
structure GroupOutcome where
  invocations : Nat
  outputs : List (String × String)
  appended : List String
deriving DecidableEq

/-- One discovered text file of a TTS group: its stem and its content. -/
structure TtsFile where
  stem : String
  content : String
deriving DecidableEq

/-- One discovered TTS work group: its ledger key (the forward-slash relative
output directory) and its text files, in gather_files order. -/
structure TtsGroup where
  key : String
  files : List TtsFile
deriving DecidableEq

/-- Per-text-file body of the TTS loop (tts_piper_weekly.py lines 177-205,
identical in tts_piper_addon.py lines 139-167): a file whose stripped content
is empty is skipped; otherwise one piper subprocess runs per voice, feeding
the stripped text on stdin, and each zero exit status yields one output wav
out_<stem>_<voice>.wav.  The subprocess exit statuses are the oracle ok
(group key, file stem, voice name). -/
def ttsFileRun (ok : String → String → String → Bool) (key : String)
    (voices : List String) (f : TtsFile) : Nat × List String :=
  if pyStrip f.content = "" then (0, [])
  else (voices.length,
    (voices.filter (fun v => ok key f.stem v)).map
      (fun v => "out_" ++ f.stem ++ "_" ++ v ++ ".wav"))

/-- Per-group body of the TTS orchestrator (tts_piper_weekly.py lines
163-210): skip when the key is already in the processed set; skip when no
text files were gathered; otherwise process every file, and append the key to
the ledger exactly when anything was written. -/
def ttsGroupRun (processed : List String) (voices : List String)
    (ok : String → String → String → Bool) (g : TtsGroup) : GroupOutcome :=
  if g.key ∈ processed then ⟨0, [], []⟩
  else if g.files.isEmpty then ⟨0, [], []⟩
  else
    let per := g.files.map (ttsFileRun ok g.key voices)
    let outs := (per.map Prod.snd).flatten
    ⟨(per.map Prod.fst).sum, outs.map (fun n => (g.key, n)),
      if outs.isEmpty then [] else [g.key]⟩

/-- Totals of one orchestrator pass, together with the ledger file contents
after the pass (old lines plus appends, in order). -/
structure RunResult where
  invocations : Nat
  outputs : List (String × String)
  ledger : List String
deriving DecidableEq

/-- One full pass of the TTS weekly orchestrator over the discovered groups:
the processed set is loaded once at start and the groups are handled in
sequence. -/
def ttsRunAll (ledgerLines : List String) (voices : List String)
    (ok : String → String → String → Bool) (groups : List TtsGroup) :
    RunResult :=
  let processed := loadProcessed ledgerLines
  let res := groups.map (ttsGroupRun processed voices ok)
  ⟨(res.map GroupOutcome.invocations).sum,
    (res.map GroupOutcome.outputs).flatten,
    ledgerLines ++ (res.map GroupOutcome.appended).flatten⟩

/-- Embedding of tts_piper_weekly.py main: exit status 1 when the scripts
directory is missing (line 107-109), otherwise a full pass and exit 0. -/
def ttsWeeklyMain (scriptsDirExists : Bool) (ledgerLines : List String)
    (voices : List String) (ok : String → String → String → Bool)
    (groups : List TtsGroup) : Nat × RunResult :=
  if !scriptsDirExists then (1, ⟨0, [], ledgerLines⟩)
  else (0, ttsRunAll ledgerLines voices ok groups)

/-- One discovered RVC work group: its ledger key and the stems of its
gathered wav files. -/
structure RvcGroup where
  key : String
  wavs : List String
deriving DecidableEq

/-- Per-group body of the RVC orchestrator (rvc_batch_infer_weekly.py lines
130-173, identical in rvc_batch_infer_addon.py lines 127-168): skip when the
key is already processed or no wavs were gathered; otherwise run infer_cli
once per wav, a zero exit status yielding one converted output, and append
the key exactly when anything was converted.  ok is the oracle of subprocess
exit statuses (group key, wav stem). -/
def rvcGroupRun (processed : List String) (ckptBase : String)
    (ok : String → String → Bool) (g : RvcGroup) : GroupOutcome :=
  if g.key ∈ processed then ⟨0, [], []⟩
  else if g.wavs.isEmpty then ⟨0, [], []⟩
  else
    let succ := g.wavs.filter (fun w => ok g.key w)
    ⟨g.wavs.length,
      succ.map (fun w => (g.key, w ++ "_" ++ ckptBase ++ "_converted.wav")),
      if succ.isEmpty then [] else [g.key]⟩

/-- One full pass of the RVC weekly orchestrator. -/
def rvcRunAll (ledgerLines : List String) (ckptBase : String)
    (ok : String → String → Bool) (groups : List RvcGroup) : RunResult :=
  let processed := loadProcessed ledgerLines
  let res := groups.map (rvcGroupRun processed ckptBase ok)
  ⟨(res.map GroupOutcome.invocations).sum,
    (res.map GroupOutcome.outputs).flatten,
    ledgerLines ++ (res.map GroupOutcome.appended).flatten⟩

/-- Embedding of rvc_batch_infer_weekly.py main, lines 69-95 and onward:
exit 1 when infer_cli.py is found nowhere; when RVC_CHECKPOINT is unset,
select a checkpoint (prefixed pick, then unprefixed fallback) and exit 1
when none is found; otherwise a full pass and exit 0. -/
def rvcWeeklyMain (inferCliExists : Bool) (ckptCfg : String)
    (ckptFiles : List String) (pfx : String) (ledgerLines : List String)
    (ok : String → String → Bool) (groups : List RvcGroup) : Nat × RunResult :=
  if !inferCliExists then (1, ⟨0, [], ledgerLines⟩)
  else
    match (if ckptCfg = "" then ckptSelect ckptFiles pfx else some ckptCfg) with
    | none => (1, ⟨0, [], ledgerLines⟩)
    | some nm => (0, rvcRunAll ledgerLines (pathStem nm) ok groups)

/-- C2: in one orchestrator pass, a group that is not skipped appends exactly
the one line [key] to the ledger iff at least one of its items succeeded
(produced an output); a group with no items or only failures appends
nothing.  Stated for the TTS and the RVC per-group bodies. -/
theorem c2_commit_iff_success :
    (∀ processed voices ok g, g.key ∉ processed →
      ((ttsGroupRun processed voices ok g).appended = [g.key] ↔
        (ttsGroupRun processed voices ok g).outputs ≠ []) ∧
      ((ttsGroupRun processed voices ok g).appended = [] ↔
        (ttsGroupRun processed voices ok g).outputs = []) ∧
      (g.files = [] → (ttsGroupRun processed voices ok g).appended = [])) ∧
    (∀ processed ckptBase ok g, g.key ∉ processed →
      ((rvcGroupRun processed ckptBase ok g).appended = [g.key] ↔
        (rvcGroupRun processed ckptBase ok g).outputs ≠ []) ∧
      ((rvcGroupRun processed ckptBase ok g).appended = [] ↔
        (rvcGroupRun processed ckptBase ok g).outputs = []) ∧
      (g.wavs = [] → (rvcGroupRun processed ckptBase ok g).appended = [])) := by
  constructor
  · intro processed voices ok g hmem
    unfold ttsGroupRun
    rw [if_neg hmem]
    by_cases hemp : g.files.isEmpty
    · simp [hemp]
    · simp only [if_neg hemp]
      rcases he : ((g.files.map (ttsFileRun ok g.key voices)).map Prod.snd).flatten with _ | ⟨o, os⟩
      · simp [List.isEmpty_iff.mp, he]
      · simp [he]
        exact fun h => hemp (List.isEmpty_iff.mpr h)
  · intro processed ckptBase ok g hmem
    unfold rvcGroupRun
    rw [if_neg hmem]
    by_cases hemp : g.wavs.isEmpty
    · simp [hemp]
    · simp only [if_neg hemp]
      rcases he : g.wavs.filter (fun w => ok g.key w) with _ | ⟨w, ws⟩
      · simp [he]
      · simp [he]
        exact fun h => hemp (List.isEmpty_iff.mpr h)

/-- C2 witness: a mixed group (one failing, one succeeding item) commits one
line; an all-failing group and an empty group commit nothing. -/
theorem c2_witness :
    (ttsGroupRun [] ["v"] (fun _ st _ => st == "a") ⟨"k", [⟨"a", "x"⟩, ⟨"b", "y"⟩]⟩).appended =
      ["k"] ∧
    (rvcGroupRun [] "ck" (fun _ _ => false) ⟨"k2", ["w1", "w2"]⟩).appended = [] :=
  ⟨((c2_commit_iff_success.1 [] ["v"] (fun _ st _ => st == "a")
        ⟨"k", [⟨"a", "x"⟩, ⟨"b", "y"⟩]⟩ (by decide)).1).mpr (by decide),
    ((c2_commit_iff_success.2 [] "ck" (fun _ _ => false)
        ⟨"k2", ["w1", "w2"]⟩ (by decide)).2.1).mpr (by decide)⟩

/-- C10: a text file whose stripped content is empty causes zero synthesizer
invocations and contributes no success; a group consisting solely of such
files performs no invocations, writes no outputs and is not committed. -/
theorem c10_empty_text_inert :
    (∀ ok key voices f, pyStrip f.content = "" →
      ttsFileRun ok key voices f = (0, [])) ∧
    (∀ processed voices ok g, (∀ f ∈ g.files, pyStrip f.content = "") →
      ttsGroupRun processed voices ok g = ⟨0, [], []⟩) := by
  have h1 : ∀ (ok : String → String → String → Bool) key voices f,
      pyStrip f.content = "" → ttsFileRun ok key voices f = (0, []) := by
    intro ok key voices f hf
    simp [ttsFileRun, hf]
  refine ⟨h1, fun processed voices ok g hall => ?_⟩
  unfold ttsGroupRun
  by_cases hmem : g.key ∈ processed
  · rw [if_pos hmem]
  · rw [if_neg hmem]
    by_cases hemp : g.files.isEmpty
    · rw [if_pos hemp]
    · rw [if_neg hemp]
      have hper : g.files.map (ttsFileRun ok g.key voices) =
          g.files.map (fun _ => ((0 : Nat), ([] : List String))) :=
        List.map_congr_left fun f hf => h1 ok g.key voices f (hall f hf)
      rw [hper]
      induction g.files with
      | nil => rfl
      | cons f fs ih =>
        simp [List.map_cons, List.sum_cons]

/-- C10 witness: a group of two whitespace-only files, under an oracle that
would succeed, stays inert and uncommitted. -/
theorem c10_witness :
    ttsGroupRun [] ["v"] (fun _ _ _ => true) ⟨"k", [⟨"a", "  "⟩, ⟨"b", ""⟩]⟩ =
      ⟨0, [], []⟩ :=
  c10_empty_text_inert.2 [] ["v"] (fun _ _ _ => true)
    ⟨"k", [⟨"a", "  "⟩, ⟨"b", ""⟩]⟩ (by decide)

theorem loadProcessed_append (l1 l2 : List String) :
    loadProcessed (l1 ++ l2) = loadProcessed l1 ++ loadProcessed l2 := by
  simp [loadProcessed, List.filter_append]

/-- Shape of the ledger keys the pipeline writes (forward-slash relative
paths): strip-invariant, nonempty, and not starting with the comment
marker. -/
def cleanKey (k : String) : Bool :=
  (pyStrip k == k) && !(k == "") && !strStarts "#" k

theorem mem_loadProcessed_of_clean {k : String} {lines : List String}
    (hc : cleanKey k = true) (hk : k ∈ lines) : k ∈ loadProcessed lines := by
  simp only [cleanKey, Bool.and_eq_true, beq_iff_eq, Bool.not_eq_true',
    beq_eq_false_iff_ne] at hc
  refine List.mem_filter.mpr ⟨List.mem_map.mpr ⟨k, hk, hc.1.1⟩, ?_⟩
  simp [hc.1.2, hc.2]

theorem ttsFileRun_snd_eq_nil {ok : String → String → String → Bool}
    {key : String} {voices : List String} {f : TtsFile}
    (h : (ttsFileRun ok key voices f).1 = 0) :
    (ttsFileRun ok key voices f).2 = [] := by
  unfold ttsFileRun at h ⊢
  by_cases hf : pyStrip f.content = ""
  · simp [hf]
  · simp only [if_neg hf] at h ⊢
    simp [List.length_eq_zero.mp h]

/-- Unfolded form of the per-group TTS body when the group is attempted. -/
theorem ttsGroupRun_eq (processed voices : List String)
    (ok : String → String → String → Bool) (g : TtsGroup)
    (h1 : g.key ∉ processed) (h2 : g.files.isEmpty = false) :
    ttsGroupRun processed voices ok g =
      ⟨((g.files.map (ttsFileRun ok g.key voices)).map Prod.fst).sum,
        (((g.files.map (ttsFileRun ok g.key voices)).map Prod.snd).flatten).map
          (fun n => (g.key, n)),
        if (((g.files.map (ttsFileRun ok g.key voices)).map
            Prod.snd).flatten).isEmpty then [] else [g.key]⟩ := by
  unfold ttsGroupRun
  rw [if_neg h1, if_neg (by simp [h2])]

/-- Second-pass behaviour of one TTS group: if the first pass of the group
either was skipped, attempted nothing, or committed its key into the second
processed set, then the second pass issues no invocation and appends
nothing. -/
theorem ttsGroupRun_second (P1 P2 voices : List String)
    (ok : String → String → String → Bool) (g : TtsGroup)
    (hsub : ∀ s ∈ P1, s ∈ P2)
    (hkey : (ttsGroupRun P1 voices ok g).appended = [g.key] → g.key ∈ P2)
    (hcommit : (ttsGroupRun P1 voices ok g).invocations ≠ 0 →
      (ttsGroupRun P1 voices ok g).appended ≠ []) :
    (ttsGroupRun P2 voices ok g).invocations = 0 ∧
    (ttsGroupRun P2 voices ok g).appended = [] := by
  by_cases hm2 : g.key ∈ P2
  · simp [ttsGroupRun, hm2]
  have hm1 : g.key ∉ P1 := fun h => hm2 (hsub _ h)
  cases hemp : g.files.isEmpty with
  | true => simp [ttsGroupRun, hm2, hemp]
  | false =>
    rw [ttsGroupRun_eq P1 voices ok g hm1 hemp] at hkey hcommit
    rw [ttsGroupRun_eq P2 voices ok g hm2 hemp]
    by_cases hz :
        ((g.files.map (ttsFileRun ok g.key voices)).map Prod.fst).sum = 0
    · have houtsnil :
          (((g.files.map (ttsFileRun ok g.key voices)).map
            Prod.snd).flatten) = [] := by
        apply List.flatten_eq_nil_iff.mpr
        intro x hx
        rcases List.mem_map.mp hx with ⟨p, hp, rfl⟩
        rcases List.mem_map.mp hp with ⟨f, hf, rfl⟩
        exact ttsFileRun_snd_eq_nil
          (List.sum_eq_zero_iff.mp hz _
            (List.mem_map.mpr ⟨_, List.mem_map.mpr ⟨f, hf, rfl⟩, rfl⟩))
      refine ⟨hz, ?_⟩
      show (if (((g.files.map (ttsFileRun ok g.key voices)).map
          Prod.snd).flatten).isEmpty = true then [] else [g.key]) = []
      rw [houtsnil]
      rfl
    · exfalso
      have happ := hcommit (by simpa using hz)
      cases houtsE : (((g.files.map (ttsFileRun ok g.key voices)).map
          Prod.snd).flatten).isEmpty with
      | true =>
        apply happ
        show (if (((g.files.map (ttsFileRun ok g.key voices)).map
            Prod.snd).flatten).isEmpty = true then [] else [g.key]) = []
        rw [houtsE]
        rfl
      | false =>
        apply hm2
        apply hkey
        show (if (((g.files.map (ttsFileRun ok g.key voices)).map
            Prod.snd).flatten).isEmpty = true then [] else [g.key]) = [g.key]
        rw [houtsE]
        rfl

/-- Unfolded form of the per-group RVC body when the group is attempted. -/
theorem rvcGroupRun_eq (processed : List String) (ckptBase : String)
    (ok : String → String → Bool) (g : RvcGroup)
    (h1 : g.key ∉ processed) (h2 : g.wavs.isEmpty = false) :
    rvcGroupRun processed ckptBase ok g =
      ⟨g.wavs.length,
        (g.wavs.filter (fun w => ok g.key w)).map
          (fun w => (g.key, w ++ "_" ++ ckptBase ++ "_converted.wav")),
        if (g.wavs.filter (fun w => ok g.key w)).isEmpty then []
        else [g.key]⟩ := by
  unfold rvcGroupRun
  rw [if_neg h1, if_neg (by simp [h2])]

/-- Second-pass behaviour of one RVC group, mirroring ttsGroupRun_second:
if the first pass of the group either was skipped, had no wavs, or
committed its key into the second processed set, the second pass issues no
invocation and appends nothing. -/
theorem rvcGroupRun_second (P1 P2 : List String) (ckptBase : String)
    (ok : String → String → Bool) (g : RvcGroup)
    (hsub : ∀ s ∈ P1, s ∈ P2)
    (hkey : (rvcGroupRun P1 ckptBase ok g).appended = [g.key] → g.key ∈ P2)
    (hcommit : (rvcGroupRun P1 ckptBase ok g).invocations ≠ 0 →
      (rvcGroupRun P1 ckptBase ok g).appended ≠ []) :
    (rvcGroupRun P2 ckptBase ok g).invocations = 0 ∧
    (rvcGroupRun P2 ckptBase ok g).appended = [] := by
  by_cases hm2 : g.key ∈ P2
  · simp [rvcGroupRun, hm2]
  have hm1 : g.key ∉ P1 := fun h => hm2 (hsub _ h)
  cases hemp : g.wavs.isEmpty with
  | true => simp [rvcGroupRun, hm2, hemp]
  | false =>
    exfalso
    rw [rvcGroupRun_eq P1 ckptBase ok g hm1 hemp] at hkey hcommit
    have hlen : g.wavs.length ≠ 0 := by
      intro h0
      rw [List.length_eq_zero.mp h0] at hemp
      simp at hemp
    have happ := hcommit hlen
    cases hsucc : (g.wavs.filter (fun w => ok g.key w)).isEmpty with
    | true =>
      apply happ
      show (if (g.wavs.filter (fun w => ok g.key w)).isEmpty = true then []
        else [g.key]) = []
      rw [hsucc]
      rfl
    | false =>
      apply hm2
      apply hkey
      show (if (g.wavs.filter (fun w => ok g.key w)).isEmpty = true then []
        else [g.key]) = [g.key]
      rw [hsucc]
      rfl

/-- C1 (amended): a work group whose key is already in the loaded processed
set gets zero invocations, zero output writes and no ledger append, in both
the TTS and the RVC orchestrator; hence, PROVIDED every group that issued at
least one invocation in the first run committed (had at least one success),
and the group keys have the clean path shape actually written by the
pipeline, a second run of either orchestrator over the unchanged input tree
performs zero external invocations and leaves its ledger unchanged.  (The
proviso is forced by c1_counterexample: an attempted group whose items all
failed is not committed and is re-invoked on the second run.) -/
theorem c1_rerun_idempotent
    (ledgerLines : List String) (voices : List String)
    (ok : String → String → String → Bool) (groups : List TtsGroup)
    (rLedgerLines : List String) (ckptBase : String)
    (rok : String → String → Bool) (rgroups : List RvcGroup)
    (hclean : ∀ g ∈ groups, cleanKey g.key = true)
    (hcommit : ∀ g ∈ groups,
      (ttsGroupRun (loadProcessed ledgerLines) voices ok g).invocations ≠ 0 →
      (ttsGroupRun (loadProcessed ledgerLines) voices ok g).appended ≠ [])
    (hrclean : ∀ g ∈ rgroups, cleanKey g.key = true)
    (hrcommit : ∀ g ∈ rgroups,
      (rvcGroupRun (loadProcessed rLedgerLines) ckptBase rok g).invocations
        ≠ 0 →
      (rvcGroupRun (loadProcessed rLedgerLines) ckptBase rok g).appended
        ≠ []) :
    ((∀ processed g2, g2.key ∈ processed →
        ttsGroupRun processed voices ok g2 = ⟨0, [], []⟩) ∧
      (∀ processed g2, g2.key ∈ processed →
        rvcGroupRun processed ckptBase rok g2 = ⟨0, [], []⟩)) ∧
    ((ttsRunAll (ttsRunAll ledgerLines voices ok groups).ledger voices ok
        groups).invocations = 0 ∧
      (ttsRunAll (ttsRunAll ledgerLines voices ok groups).ledger voices ok
        groups).ledger = (ttsRunAll ledgerLines voices ok groups).ledger) ∧
    ((rvcRunAll (rvcRunAll rLedgerLines ckptBase rok rgroups).ledger
        ckptBase rok rgroups).invocations = 0 ∧
      (rvcRunAll (rvcRunAll rLedgerLines ckptBase rok rgroups).ledger
        ckptBase rok rgroups).ledger =
        (rvcRunAll rLedgerLines ckptBase rok rgroups).ledger) := by
  have hskip : ∀ processed g2, g2.key ∈ processed →
      ttsGroupRun processed voices ok g2 = ⟨0, [], []⟩ := by
    intro processed g2 h
    simp [ttsGroupRun, h]
  have hrskip : ∀ processed g2, g2.key ∈ processed →
      rvcGroupRun processed ckptBase rok g2 = ⟨0, [], []⟩ := by
    intro processed g2 h
    simp [rvcGroupRun, h]
  have hL2 : (ttsRunAll ledgerLines voices ok groups).ledger =
      ledgerLines ++ ((groups.map
        (ttsGroupRun (loadProcessed ledgerLines) voices ok)).map
        GroupOutcome.appended).flatten := rfl
  have hsub : ∀ s ∈ loadProcessed ledgerLines,
      s ∈ loadProcessed (ttsRunAll ledgerLines voices ok groups).ledger := by
    intro s hs
    rw [hL2, loadProcessed_append]
    exact List.mem_append_left _ hs
  have hkey : ∀ g ∈ groups,
      (ttsGroupRun (loadProcessed ledgerLines) voices ok g).appended =
        [g.key] →
      g.key ∈ loadProcessed (ttsRunAll ledgerLines voices ok groups).ledger := by
    intro g hg happ
    rw [hL2, loadProcessed_append]
    refine List.mem_append_right _ (mem_loadProcessed_of_clean (hclean g hg) ?_)
    refine List.mem_flatten.mpr ⟨[g.key], ?_, by simp⟩
    exact List.mem_map.mpr
      ⟨ttsGroupRun (loadProcessed ledgerLines) voices ok g,
        List.mem_map.mpr ⟨g, hg, rfl⟩, happ⟩
  have hsecond : ∀ g ∈ groups,
      (ttsGroupRun
        (loadProcessed (ttsRunAll ledgerLines voices ok groups).ledger)
        voices ok g).invocations = 0 ∧
      (ttsGroupRun
        (loadProcessed (ttsRunAll ledgerLines voices ok groups).ledger)
        voices ok g).appended = [] := fun g hg =>
    ttsGroupRun_second _ _ voices ok g hsub (hkey g hg) (hcommit g hg)
  have hrL2 : (rvcRunAll rLedgerLines ckptBase rok rgroups).ledger =
      rLedgerLines ++ ((rgroups.map
        (rvcGroupRun (loadProcessed rLedgerLines) ckptBase rok)).map
        GroupOutcome.appended).flatten := rfl
  have hrsub : ∀ s ∈ loadProcessed rLedgerLines,
      s ∈ loadProcessed
        (rvcRunAll rLedgerLines ckptBase rok rgroups).ledger := by
    intro s hs
    rw [hrL2, loadProcessed_append]
    exact List.mem_append_left _ hs
  have hrkey : ∀ g ∈ rgroups,
      (rvcGroupRun (loadProcessed rLedgerLines) ckptBase rok g).appended =
        [g.key] →
      g.key ∈ loadProcessed
        (rvcRunAll rLedgerLines ckptBase rok rgroups).ledger := by
    intro g hg happ
    rw [hrL2, loadProcessed_append]
    refine List.mem_append_right _
      (mem_loadProcessed_of_clean (hrclean g hg) ?_)
    refine List.mem_flatten.mpr ⟨[g.key], ?_, by simp⟩
    exact List.mem_map.mpr
      ⟨rvcGroupRun (loadProcessed rLedgerLines) ckptBase rok g,
        List.mem_map.mpr ⟨g, hg, rfl⟩, happ⟩
  have hrsecond : ∀ g ∈ rgroups,
      (rvcGroupRun
        (loadProcessed (rvcRunAll rLedgerLines ckptBase rok rgroups).ledger)
        ckptBase rok g).invocations = 0 ∧
      (rvcGroupRun
        (loadProcessed (rvcRunAll rLedgerLines ckptBase rok rgroups).ledger)
        ckptBase rok g).appended = [] := fun g hg =>
    rvcGroupRun_second _ _ ckptBase rok g hrsub (hrkey g hg) (hrcommit g hg)
  refine ⟨⟨hskip, hrskip⟩, ⟨?_, ?_⟩, ⟨?_, ?_⟩⟩
  · apply List.sum_eq_zero_iff.mpr
    intro x hx
    rcases List.mem_map.mp hx with ⟨o, ho, rfl⟩
    rcases List.mem_map.mp ho with ⟨g, hg, rfl⟩
    exact (hsecond g hg).1
  · show _ ++ _ = _
    rw [List.append_right_eq_self]
    apply List.flatten_eq_nil_iff.mpr
    intro x hx
    rcases List.mem_map.mp hx with ⟨o, ho, rfl⟩
    rcases List.mem_map.mp ho with ⟨g, hg, rfl⟩
    exact (hsecond g hg).2
  · apply List.sum_eq_zero_iff.mpr
    intro x hx
    rcases List.mem_map.mp hx with ⟨o, ho, rfl⟩
    rcases List.mem_map.mp ho with ⟨g, hg, rfl⟩
    exact (hrsecond g hg).1
  · show _ ++ _ = _
    rw [List.append_right_eq_self]
    apply List.flatten_eq_nil_iff.mpr
    intro x hx
    rcases List.mem_map.mp hx with ⟨o, ho, rfl⟩
    rcases List.mem_map.mp ho with ⟨g, hg, rfl⟩
    exact (hrsecond g hg).2

/-- C1 counterexample: one group with one nonempty item whose invocation
fails.  The first run performs one invocation and commits nothing, so the
second run over the unchanged tree performs one more invocation — the
claimed unconditional zero-invocation second run is false. -/
theorem c1_counterexample :
    (ttsRunAll
        (ttsRunAll [] ["voice"] (fun _ _ _ => false)
          [⟨"data/step2_wav-tts/en/2025w38", [⟨"01_intro", "hello"⟩]⟩]).ledger
        ["voice"] (fun _ _ _ => false)
        [⟨"data/step2_wav-tts/en/2025w38", [⟨"01_intro", "hello"⟩]⟩]).invocations
      ≠ 0 := by
  decide

/-- C1 witness: under all-succeeding invocation oracles the amended
statement applies, and the second run of each orchestrator is
invocation-free with an unchanged ledger. -/
theorem c1_witness :
    ((ttsRunAll
        (ttsRunAll [] ["voice"] (fun _ _ _ => true)
          [⟨"data/step2_wav-tts/en/2025w38", [⟨"01_intro", "hello"⟩]⟩]).ledger
        ["voice"] (fun _ _ _ => true)
        [⟨"data/step2_wav-tts/en/2025w38", [⟨"01_intro", "hello"⟩]⟩]).invocations
      = 0 ∧
    (ttsRunAll
        (ttsRunAll [] ["voice"] (fun _ _ _ => true)
          [⟨"data/step2_wav-tts/en/2025w38", [⟨"01_intro", "hello"⟩]⟩]).ledger
        ["voice"] (fun _ _ _ => true)
        [⟨"data/step2_wav-tts/en/2025w38", [⟨"01_intro", "hello"⟩]⟩]).ledger =
      (ttsRunAll [] ["voice"] (fun _ _ _ => true)
        [⟨"data/step2_wav-tts/en/2025w38", [⟨"01_intro", "hello"⟩]⟩]).ledger) ∧
    ((rvcRunAll
        (rvcRunAll [] "EXP_e130_s200" (fun _ _ => true)
          [⟨"data/step3_wav-converted/en/2025w38", ["out_01_intro_voice"]⟩]).ledger
        "EXP_e130_s200" (fun _ _ => true)
        [⟨"data/step3_wav-converted/en/2025w38", ["out_01_intro_voice"]⟩]).invocations
      = 0 ∧
    (rvcRunAll
        (rvcRunAll [] "EXP_e130_s200" (fun _ _ => true)
          [⟨"data/step3_wav-converted/en/2025w38", ["out_01_intro_voice"]⟩]).ledger
        "EXP_e130_s200" (fun _ _ => true)
        [⟨"data/step3_wav-converted/en/2025w38", ["out_01_intro_voice"]⟩]).ledger =
      (rvcRunAll [] "EXP_e130_s200" (fun _ _ => true)
        [⟨"data/step3_wav-converted/en/2025w38", ["out_01_intro_voice"]⟩]).ledger) :=
  (c1_rerun_idempotent [] ["voice"] (fun _ _ _ => true)
    [⟨"data/step2_wav-tts/en/2025w38", [⟨"01_intro", "hello"⟩]⟩]
    [] "EXP_e130_s200" (fun _ _ => true)
    [⟨"data/step3_wav-converted/en/2025w38", ["out_01_intro_voice"]⟩]
    (by decide) (by decide) (by decide) (by decide)).2

theorem pickStep_isSome (o : Option (Int × String)) (p : String) :
    ∃ c, pickStep o p = some c := by
  cases o with
  | none => exact ⟨_, rfl⟩
  | some b =>
    unfold pickStep
    by_cases h : ckptScore p > b.1
    · exact ⟨_, if_pos h⟩
    · exact ⟨_, if_neg h⟩

theorem foldl_pickStep_isSome : ∀ (l : List String) (b : Int × String),
    (l.foldl pickStep (some b)).isSome = true
  | [], _ => rfl
  | p :: ps, b => by
    rw [List.foldl_cons]
    rcases pickStep_isSome (some b) p with ⟨c, hc⟩
    rw [hc]
    exact foldl_pickStep_isSome ps c

theorem pickLatestCkpt_none_iff (files : List String) (pfx : String) :
    pickLatestCkpt files pfx = none ↔ files.filter (globCkpt pfx) = [] := by
  unfold pickLatestCkpt
  rcases hf : files.filter (globCkpt pfx) with _ | ⟨p, ps⟩
  · simp
  · simp only [List.foldl_cons]
    constructor
    · intro h
      exfalso
      have hs := foldl_pickStep_isSome ps (ckptScore p, p)
      rw [Option.map_eq_none'] at h
      rw [show pickStep none p = some (ckptScore p, p) from rfl] at h
      rw [h] at hs
      cases hs
    · intro h
      cases h

/-- C4 counterexample: the claim's candidate filenames carry the .ckpt
extension, but pick_latest_ckpt only globs *.pth, so selection returns
nothing on them instead of the e130 file; and a prefix filter matching no
candidate does not abort the run when an unprefixed .pth candidate exists —
main falls back to the unprefixed pick and exits 0. -/
theorem c4_counterexample :
    pickLatestCkpt
      ["EXP_e50_s100.ckpt", "EXP_e130_s200.ckpt", "EXP_e90_s150.ckpt"] "" =
      none ∧
    (rvcWeeklyMain true "" ["ABC_e10.pth"] "OTHER" [] (fun _ _ => false)
      []).1 = 0 := by
  constructor
  · decide
  · decide

/-- C4 (amended): on candidates named with the .pth extension that the glob
accepts, selection returns the file with the highest epoch number after _e,
so EXP_e130_s200.pth among the three; when the configured prefix matches no
candidate, selection falls back to the unprefixed pick, and the run aborts
with a "no checkpoint found" error and exit status 1 exactly when that
fallback also finds nothing, i.e. when no file matches *.pth at all. -/
theorem c4_checkpoint_selection :
    pickLatestCkpt
      ["EXP_e50_s100.pth", "EXP_e130_s200.pth", "EXP_e90_s150.pth"] "" =
      some "EXP_e130_s200.pth" ∧
    (∀ files pfx, pickLatestCkpt files pfx = none →
      ckptSelect files pfx = pickLatestCkpt files "") ∧
    (∀ (files : List String) (pfx : String) (ledger : List String)
      (ok : String → String → Bool) (groups : List RvcGroup),
      ckptSelect files pfx = none →
      (rvcWeeklyMain true "" files pfx ledger ok groups).1 = 1) ∧
    (∀ files : List String, pickLatestCkpt files "" = none ↔
      files.filter (globCkpt "") = []) := by
  refine ⟨by decide, ?_, ?_, fun files => pickLatestCkpt_none_iff files ""⟩
  · intro files pfx h
    unfold ckptSelect
    rw [h]
  · intro files pfx ledger ok groups h
    unfold rvcWeeklyMain
    simp [h]

/-- C4 witness: the fallback and abort clauses applied at concrete inputs. -/
theorem c4_witness :
    ckptSelect ["EXP_e50_s100.pth", "EXP_e130_s200.pth"] "ZZZ" =
      pickLatestCkpt ["EXP_e50_s100.pth", "EXP_e130_s200.pth"] "" ∧
    (rvcWeeklyMain true "" [] "" [] (fun _ _ => false) []).1 = 1 :=
  ⟨c4_checkpoint_selection.2.1 ["EXP_e50_s100.pth", "EXP_e130_s200.pth"] "ZZZ"
      (by decide),
    c4_checkpoint_selection.2.2.1 [] "" [] (fun _ _ => false) [] (by decide)⟩

/-- C5: the embedded orchestrator mains return a nonzero exit status only
when the input root is missing (TTS) or the infer CLI or checkpoint is
missing (RVC); with those present the exit status is 0 for every invocation
oracle, in particular when every item fails. -/
theorem c5_exit_status_contract :
    (∀ sde ledger voices ok groups,
      (ttsWeeklyMain sde ledger voices ok groups).1 ≠ 0 → sde = false) ∧
    (∀ ledger voices ok groups,
      (ttsWeeklyMain true ledger voices ok groups).1 = 0) ∧
    (∀ cli cfgName files pfx ledger ok groups,
      (rvcWeeklyMain cli cfgName files pfx ledger ok groups).1 ≠ 0 →
      cli = false ∨ (cfgName = "" ∧ ckptSelect files pfx = none)) ∧
    (∀ cfgName files pfx ledger (groups : List RvcGroup),
      cfgName ≠ "" ∨ (ckptSelect files pfx).isSome = true →
      (rvcWeeklyMain true cfgName files pfx ledger (fun _ _ => false)
        groups).1 = 0) := by
  refine ⟨?_, ?_, ?_, ?_⟩
  · intro sde ledger voices ok groups h
    cases sde
    · rfl
    · exact absurd rfl h
  · intro ledger voices ok groups
    rfl
  · intro cli cfgName files pfx ledger ok groups h
    cases cli
    · exact Or.inl rfl
    · by_cases hcfg : cfgName = ""
      · rcases hsel : ckptSelect files pfx with _ | nm
        · exact Or.inr ⟨hcfg, hsel ▸ rfl⟩

        · exfalso
          apply h
          unfold rvcWeeklyMain
          simp [hcfg, hsel]
      · exfalso
        apply h
        unfold rvcWeeklyMain
        simp [hcfg]
  · intro cfgName files pfx ledger groups h
    unfold rvcWeeklyMain
    by_cases hcfg : cfgName = ""
    · rcases hsel : ckptSelect files pfx with _ | nm
      · rcases h with hne | hsome
        · exact absurd hcfg hne
        · rw [hsel] at hsome
          simp at hsome
      · simp [hcfg, hsel]
    · simp [hcfg]

/-- C5 witness: with the inputs present, all-failing items leave both mains
at exit status 0. -/
theorem c5_witness :
    (ttsWeeklyMain true [] ["v"] (fun _ _ _ => false) [⟨"k", [⟨"a", "x"⟩]⟩]).1
      = 0 ∧
    (rvcWeeklyMain true "" ["EXP_e7_s9.pth"] "" [] (fun _ _ => false)
      [⟨"k2", ["w1", "w2"]⟩]).1 = 0 :=
  ⟨c5_exit_status_contract.2.1 [] ["v"] (fun _ _ _ => false)
      [⟨"k", [⟨"a", "x"⟩]⟩],
    c5_exit_status_contract.2.2.2 "" ["EXP_e7_s9.pth"] "" []
      [⟨"k2", ["w1", "w2"]⟩] (Or.inr (by decide))⟩

/-- Lower-casing of a string, character by character (ASCII content-type
and class values in this pipeline). -/
def strLower (s : String) : String := String.mk (s.data.map Char.toLower)

/-- Abstract model of one parsed HTML element, carrying exactly the
attributes resolve_snapshot_from_html reads: meta tags (property, name,
content) and img tags (class, src).  A document is its element list in
document order; BeautifulSoup find returns the first match. -/
inductive Tag where
  | meta (propAttr : Option String) (nameAttr : Option String)
      (contentAttr : Option String)
  | img (classAttr : Option String) (srcAttr : Option String)
  | other
deriving DecidableEq

/-- One network response as the scripts observe it: HTTP status code,
declared Content-Type header ("" when the header is absent, as in
r.headers.get with default ""), the parsed element list of the body, and
whether the body text is nonempty.  Response bodies are modelled as
delivered atomically. -/
structure Resp where
  status : Nat
  contentType : String
  doc : List Tag
  textNonempty : Bool
deriving DecidableEq

/-- Trace of one fetch_with_retries call (parse_week_json.py lines 107-118):
the returned response (none when the loop exhausts all attempts and
re-raises the last exception), the number of requests issued, and the sleeps
performed in units of 0.5 s — the code sleeps 0.5 * (attempt + 1) seconds
after the failed 0-based attempt number attempt, except after the last
one. -/
structure FetchTrace where
  result : Option Resp
  requests : Nat
  sleepsHalf : List Nat
deriving DecidableEq

/-- The attempt loop of fetch_with_retries: first argument the remaining
attempts, second the current 0-based attempt number; net gives each
attempt's outcome (none = transport exception raised by the request). -/
def fetchGo (net : Nat → Option Resp) : Nat → Nat → FetchTrace
  | 0, _ => ⟨none, 0, []⟩
  | r + 1, attempt =>
    match net attempt with
    | some resp => ⟨some resp, 1, []⟩
    | none =>
      if r = 0 then ⟨none, 1, []⟩
      else
        let t := fetchGo net r (attempt + 1)
        ⟨t.result, t.requests + 1, (attempt + 1) :: t.sleepsHalf⟩

/-- Embedding of fetch_with_retries: range(retries + 1) attempts starting at
attempt 0.  The configured retry count is a non-negative integer, default
2 (RETRIES in process_json_file line 214). -/
def fetchWithRetries (net : Nat → Option Resp) (retries : Nat) : FetchTrace :=
  fetchGo net (retries + 1) 0

theorem fetchGo_requests_le (net : Nat → Option Resp) :
    ∀ r a, (fetchGo net r a).requests ≤ r
  | 0, _ => Nat.le_refl 0
  | r + 1, a => by
    simp only [fetchGo]
    cases hnet : net a with
    | some resp => simp
    | none =>
      by_cases hr : r = 0
      · simp [hr]
      · have ih := fetchGo_requests_le net r (a + 1)
        simp only [if_neg hr]
        exact Nat.succ_le_succ ih

theorem fetchGo_all_fail (net : Nat → Option Resp) :
    ∀ r a, (∀ i, i < r → net (a + i) = none) → 1 ≤ r →
      fetchGo net r a =
        ⟨none, r, (List.range (r - 1)).map (fun i => a + i + 1)⟩
  | 0, _, _, h1 => absurd h1 (by omega)
  | r + 1, a, h, _ => by
    simp only [fetchGo]
    have h0 : net a = none := by simpa using h 0 (by omega)
    rw [h0]
    by_cases hr : r = 0
    · subst hr; simp
    · have ih := fetchGo_all_fail net r (a + 1)
        (fun i hi => by
          have hidx : a + 1 + i = a + (i + 1) := by omega
          rw [hidx]
          exact h (i + 1) (by omega))
        (by omega)
      rw [if_neg hr, ih]
      show FetchTrace.mk none (r + 1)
          ((a + 1) :: (List.range (r - 1)).map (fun i => a + 1 + i + 1)) =
        FetchTrace.mk none (r + 1)
          ((List.range (r + 1 - 1)).map (fun i => a + i + 1))
      refine congrArg (FetchTrace.mk none (r + 1)) ?_
      have hidx : r + 1 - 1 = (r - 1) + 1 := by omega
      rw [hidx, List.range_succ_eq_map, List.map_cons, List.map_map]
      refine congrArg₂ _ (by omega) ?_
      apply List.map_congr_left
      intro x _
      show a + 1 + x + 1 = a + (x + 1) + 1
      omega

/-- C6: network retrieval issues at most retries + 1 requests; when every
attempt raises, all retries + 1 requests are issued, the backoff sleeps are
0.5 s times the 1-based attempt number for every attempt but the last, and
the call re-raises (returns no response); by contrast, an external
child-process invocation happens exactly once per item regardless of its
exit status — a failing item is never retried. -/
theorem c6_retry_asymmetry :
    (∀ net retries, (fetchWithRetries net retries).requests ≤ retries + 1) ∧
    (∀ net retries, (∀ a, a ≤ retries → net a = none) →
      fetchWithRetries net retries =
        ⟨none, retries + 1, (List.range retries).map (fun a => a + 1)⟩) ∧
    (∀ (ok : String → String → String → Bool) key voices f,
      (ttsFileRun ok key voices f).1 =
        if pyStrip f.content = "" then 0 else voices.length) ∧
    (∀ (processed : List String) ckptBase (ok : String → String → Bool) g,
      g.key ∉ processed → g.wavs ≠ [] →
      (rvcGroupRun processed ckptBase ok g).invocations = g.wavs.length) := by
  refine ⟨?_, ?_, ?_, ?_⟩
  · intro net retries
    exact fetchGo_requests_le net (retries + 1) 0
  · intro net retries h
    have := fetchGo_all_fail net (retries + 1) 0
      (fun i hi => by simpa using h i (by omega)) (by omega)
    rw [fetchWithRetries, this]
    have hn : retries + 1 - 1 = retries := by omega
    rw [hn]
    refine congrArg _ ?_
    apply List.map_congr_left
    intro x _
    omega
  · intro ok key voices f
    unfold ttsFileRun
    by_cases hf : pyStrip f.content = ""
    · simp [hf]
    · simp [hf]
  · intro processed ckptBase ok g h1 h2
    unfold rvcGroupRun
    rw [if_neg h1, if_neg (by simp [h2])]

/-- C6 witness: an always-failing network oracle at the default retry count
issues 3 requests, sleeps 0.5 s then 1.0 s, and re-raises; a per-item TTS
invocation count equals the voice count under an all-failing exit oracle. -/
theorem c6_witness :
    fetchWithRetries (fun _ => none) 2 = ⟨none, 3, [1, 2]⟩ ∧
    (ttsFileRun (fun _ _ _ => false) "k" ["v1", "v2"] ⟨"a", "text"⟩).1 = 2 :=
  ⟨(c6_retry_asymmetry.2.1 (fun _ => none) 2 (fun _ _ => rfl)).trans (by decide),
    (c6_retry_asymmetry.2.2.1 (fun _ _ _ => false) "k" ["v1", "v2"]
      ⟨"a", "text"⟩).trans (by decide)⟩

/-- Embedding of is_image_content_type (parse_week_json.py lines 73-74):
Python bool(ct and ct.lower().startswith("image/")); the absent header is
the empty string. -/
def isImageContentType (ct : String) : Bool :=
  !(ct == "") && strStarts "image/" (strLower ct)

/-- Embedding of guess_ext_from_content_type (parse_week_json.py lines
76-88): lower-case, take the part before the first ";", strip, and look the
result up in the fixed kind-to-extension table, defaulting to ".bin". -/
def guessExtFromContentType (ct : String) : String :=
  if ct == "" then ".bin"
  else
    let c := pyStrip (String.mk ((strLower ct).data.takeWhile
      (fun ch => !(ch == ';'))))
    if c == "image/png" then ".png"
    else if c == "image/jpeg" then ".jpg"
    else if c == "image/jpg" then ".jpg"
    else if c == "image/webp" then ".webp"
    else if c == "image/gif" then ".gif"
    else if c == "image/svg+xml" then ".svg"
    else ".bin"

/-- Substring occurrence test on character lists. -/
def listIsSubstr (n : List Char) : List Char → Bool
  | [] => n.isEmpty
  | c :: cs => listLeads n (c :: cs) || listIsSubstr n cs

/-- Substring occurrence test on strings: models both Python's "x in s" and
the regex search for a literal pattern. -/
def strContainsSub (needle hay : String) : Bool :=
  listIsSubstr needle.data hay.data

def isMetaOg : Tag → Bool
  | .meta p _ _ => p == some "og:image"
  | _ => false

def isMetaTw : Tag → Bool
  | .meta _ n _ => n == some "twitter:image"
  | _ => false

/-- An img element whose class attribute matches the regex
tv-snapshot-image (a literal pattern, modelled as a substring test on the
class value). -/
def isSnapImg : Tag → Bool
  | .img c _ =>
    match c with
    | some cls => strContainsSub "tv-snapshot-image" cls
    | none => false
  | _ => false

def isImgTag : Tag → Bool
  | .img _ _ => true
  | _ => false

def tagContent : Tag → Option String
  | .meta _ _ c => c
  | _ => none

def tagSrc : Tag → Option String
  | .img _ s => s
  | _ => none

/-- Python truthiness of tag.get(attr): both a missing attribute (None) and
an empty string are falsy. -/
def truthyAttr : Option String → Option String
  | some s => if s == "" then none else some s
  | none => none

/-- Embedding of resolve_snapshot_from_html (parse_week_json.py lines
121-150): None without bs4; otherwise check, in order, the og:image meta
tag, the twitter:image meta tag, an img with the snapshot class, then the
first img at all, and return the first truthy candidate joined against the
base URL.  uj is the opaque embedding of urllib.parse.urljoin. -/
def resolveSnapshotFromHtml (uj : String → String → String) (haveBs4 : Bool)
    (doc : List Tag) (baseUrl : String) : Option String :=
  if !haveBs4 then none
  else
    match truthyAttr ((doc.find? isMetaOg).bind tagContent) with
    | some c => some (uj baseUrl c)
    | none =>
      match truthyAttr ((doc.find? isMetaTw).bind tagContent) with
      | some c => some (uj baseUrl c)
      | none =>
        match truthyAttr ((doc.find? isSnapImg).bind tagSrc) with
        | some s => some (uj baseUrl s)
        | none =>
          match truthyAttr ((doc.find? isImgTag).bind tagSrc) with
          | some s => some (uj baseUrl s)
          | none => none

/-- Outcome of one (post-retry) network retrieval, per URL: a transport
failure inside the retried request (exc — nothing delivered), a completely
delivered response (ok), or a response whose headers arrived but whose body
transfer fails mid-stream (bodyFail).  The last case matters for the
streamed (stream=True) image downloads: the failure surfaces from
iter_content only after the artifact file has been opened and partially
written. -/
inductive FetchOutcome where
  | exc
  | ok (r : Resp)
  | bodyFail (r : Resp)

def isBodyFail : FetchOutcome → Bool
  | .bodyFail _ => true
  | _ => false

/-- Result of one resolution strategy: an artifact fully saved at a path; a
plain None return, with no write; an exception propagated to the caller
with no write; or an exception propagated after the artifact file was
opened and partially written (a streamed download interrupted mid-body). -/
inductive TryResult where
  | saved (path : String)
  | noSave
  | excNoWrite
  | excPartial (path : String)

/-- The shared streamed-download block of try_direct_image (parse_week_json
lines 159-168) and of the snapshot download in try_html_then_image (lines
184-192): check the headers; on a 200 response with an image Content-Type,
open dest_base with the guessed extension and stream the body into it.  A
complete body yields the saved path; a mid-body failure leaves the opened,
partially written file and raises out of the with-block; any other response
returns None without touching the body. -/
def streamDownload (f : FetchOutcome) (destBase : String) : TryResult :=
  match f with
  | .exc => .excNoWrite
  | .ok r =>
    if r.status == 200 && isImageContentType r.contentType then
      .saved (destBase ++ guessExtFromContentType r.contentType)
    else .noSave
  | .bodyFail r =>
    if r.status == 200 && isImageContentType r.contentType then
      .excPartial (destBase ++ guessExtFromContentType r.contentType)
    else .noSave

/-- Embedding of try_direct_image (parse_week_json.py lines 158-168): one
(retried) retrieval of the reference, then the streamed download. -/
def tryDirectImage (net : String → FetchOutcome) (url destBase : String) :
    TryResult :=
  streamDownload (net url) destBase

/-- Embedding of try_html_then_image (parse_week_json.py lines 170-193):
fetch the page (stream=False, so a mid-body failure there raises inside the
retried request and propagates with no write); when the response is neither
text-like nor has body text, give up; otherwise resolve a snapshot URL from
the parsed body against the page URL and run the streamed download on
it. -/
def tryHtmlThenImage (net : String → FetchOutcome)
    (uj : String → String → String) (haveBs4 : Bool) (url destBase : String) :
    TryResult :=
  match net url with
  | .exc => .excNoWrite
  | .bodyFail _ => .excNoWrite
  | .ok r =>
    let ct := strLower r.contentType
    let textLike := strContainsSub "text/html" ct ||
      strContainsSub "application/xhtml" ct || strContainsSub "text/plain" ct
    if !textLike && !r.textNonempty then .noSave
    else
      match resolveSnapshotFromHtml uj haveBs4 r.doc url with
      | none => .noSave
      | some snapUrl => streamDownload (net snapUrl) destBase

inductive WriteKind where
  | direct
  | indirect
  | link
deriving DecidableEq

/-- The file a strategy leaves behind on its exception path: the partially
written artifact of an interrupted streamed download, and nothing
otherwise. -/
def partialWrites (k : WriteKind) : TryResult → List (WriteKind × String)
  | .excPartial p => [(k, p)]
  | _ => []

/-- Embedding of the per-item image handling of process_json_file
(parse_week_json.py lines 251-271): try the direct download, catching
exceptions; if nothing was saved and HTML scraping is enabled and bs4 is
present, try the page-scrape fallback, catching exceptions; if still
nothing was saved, write the .link placeholder.  The result lists the files
this item leaves behind, tagged by the strategy that wrote them — including
the partial artifacts left by interrupted streamed downloads, which the
except-handlers do not remove. -/
def chainWrites (net : String → FetchOutcome) (uj : String → String → String)
    (enableHtml haveBs4 : Bool) (url destBase : String) :
    List (WriteKind × String) :=
  match tryDirectImage net url destBase with
  | .saved p => [(.direct, p)]
  | d =>
    if enableHtml && haveBs4 then
      match tryHtmlThenImage net uj haveBs4 url destBase with
      | .saved p => partialWrites .direct d ++ [(.indirect, p)]
      | h => partialWrites .direct d ++ partialWrites .indirect h ++
          [(.link, destBase ++ ".link")]
    else partialWrites .direct d ++ [(.link, destBase ++ ".link")]

/-- C3 counterexample: a direct download whose 200 image/png body transfer
fails mid-stream leaves the partially written artifact file; the exception
is caught, nothing was saved, and the .link placeholder is then also
written — two of the three outcomes exist at once, refuting the claimed
exactly-one. -/
theorem c3_counterexample :
    (chainWrites (fun _ => FetchOutcome.bodyFail ⟨200, "image/png", [], false⟩)
        (fun _ c => c) false false "http://x/img" "img/01") =
      [(WriteKind.direct, "img/01.png"), (WriteKind.link, "img/01.link")] ∧
    (chainWrites (fun _ => FetchOutcome.bodyFail ⟨200, "image/png", [], false⟩)
        (fun _ c => c) false false "http://x/img" "img/01").length ≠ 1 := by
  constructor
  · decide
  · decide

theorem streamDownload_no_partial (f : FetchOutcome) (destBase : String)
    (h : isBodyFail f = false) (p : String) :
    streamDownload f destBase ≠ TryResult.excPartial p := by
  rcases f with _ | r | r
  · simp [streamDownload]
  · simp only [streamDownload]
    split <;> simp
  · simp [isBodyFail] at h

theorem tryHtmlThenImage_no_partial (net : String → FetchOutcome)
    (uj : String → String → String) (haveBs4 : Bool) (url destBase : String)
    (h : ∀ u, isBodyFail (net u) = false) (p : String) :
    tryHtmlThenImage net uj haveBs4 url destBase
      ≠ TryResult.excPartial p := by
  unfold tryHtmlThenImage
  rcases hn : net url with _ | r | r
  · simp
  · show (if (!(strContainsSub "text/html" (strLower r.contentType) ||
        strContainsSub "application/xhtml" (strLower r.contentType) ||
        strContainsSub "text/plain" (strLower r.contentType)) &&
        !r.textNonempty) = true then TryResult.noSave
      else
        match resolveSnapshotFromHtml uj haveBs4 r.doc url with
        | none => TryResult.noSave
        | some snapUrl => streamDownload (net snapUrl) destBase)
      ≠ TryResult.excPartial p
    by_cases hif : (!(strContainsSub "text/html" (strLower r.contentType) ||
        strContainsSub "application/xhtml" (strLower r.contentType) ||
        strContainsSub "text/plain" (strLower r.contentType)) &&
        !r.textNonempty) = true
    · rw [if_pos hif]
      simp
    · rw [if_neg hif]
      rcases hs : resolveSnapshotFromHtml uj haveBs4 r.doc url with _ | snapUrl
      · simp
      · exact streamDownload_no_partial (net snapUrl) destBase (h snapUrl) p
  · simp

/-- C3 (amended): for an item with a nonempty image reference, PROVIDED no
image body transfer fails mid-stream (every fetched body is delivered
atomically), the resolution chain performs exactly one write — a direct
artifact, an indirect (page-scrape) artifact, or the .link placeholder.
The proviso is forced by c3_counterexample: a 200 image response whose
streamed body transfer is interrupted leaves a partial artifact file, after
which the chain continues and also writes its later outcome. -/
theorem c3_exactly_one_outcome
    (net : String → FetchOutcome) (uj : String → String → String)
    (enableHtml haveBs4 : Bool) (url destBase : String)
    (_hurl : pyStrip url ≠ "")
    (hatomic : ∀ u, isBodyFail (net u) = false) :
    (chainWrites net uj enableHtml haveBs4 url destBase).length = 1 ∧
    ((chainWrites net uj enableHtml haveBs4 url destBase).map Prod.fst =
        [WriteKind.direct] ∨
      (chainWrites net uj enableHtml haveBs4 url destBase).map Prod.fst =
        [WriteKind.indirect] ∨
      (chainWrites net uj enableHtml haveBs4 url destBase).map Prod.fst =
        [WriteKind.link]) := by
  have hdp := streamDownload_no_partial (net url) destBase (hatomic url)
  have hhp := tryHtmlThenImage_no_partial net uj haveBs4 url destBase hatomic
  rcases hd : tryDirectImage net url destBase with q | _ | _ | q
  · simp [chainWrites, hd]
  · by_cases henb : (enableHtml && haveBs4) = true
    · rcases hh : tryHtmlThenImage net uj haveBs4 url destBase
        with q2 | _ | _ | q2
      · simp [chainWrites, hd, hh, henb, partialWrites]
      · simp [chainWrites, hd, hh, henb, partialWrites]
      · simp [chainWrites, hd, hh, henb, partialWrites]
      · exact absurd hh (hhp q2)
    · simp [chainWrites, hd, henb, partialWrites]
  · by_cases henb : (enableHtml && haveBs4) = true
    · rcases hh : tryHtmlThenImage net uj haveBs4 url destBase
        with q2 | _ | _ | q2
      · simp [chainWrites, hd, hh, henb, partialWrites]
      · simp [chainWrites, hd, hh, henb, partialWrites]
      · simp [chainWrites, hd, hh, henb, partialWrites]
      · exact absurd hh (hhp q2)
    · simp [chainWrites, hd, henb, partialWrites]
  · exact absurd hd (hdp q)

/-- C3 witness: under an atomic-delivery oracle, a reference whose direct
fetch returns a non-image page and whose scrape fallback is disabled gets
exactly the placeholder write. -/
theorem c3_witness :
    pyStrip "http://x/y" ≠ "" ∧
    (chainWrites (fun _ => FetchOutcome.ok ⟨200, "text/html", [], true⟩)
        (fun _ c => c) false false "http://x/y" "img/01").length = 1 ∧
    ((chainWrites (fun _ => FetchOutcome.ok ⟨200, "text/html", [], true⟩)
        (fun _ c => c) false false "http://x/y" "img/01").map Prod.fst =
        [WriteKind.direct] ∨
      (chainWrites (fun _ => FetchOutcome.ok ⟨200, "text/html", [], true⟩)
        (fun _ c => c) false false "http://x/y" "img/01").map Prod.fst =
        [WriteKind.indirect] ∨
      (chainWrites (fun _ => FetchOutcome.ok ⟨200, "text/html", [], true⟩)
        (fun _ c => c) false false "http://x/y" "img/01").map Prod.fst =
        [WriteKind.link]) :=
  ⟨by decide,
    c3_exactly_one_outcome (fun _ => FetchOutcome.ok ⟨200, "text/html", [], true⟩)
      (fun _ c => c) false false "http://x/y" "img/01" (by decide)
      (fun _ => rfl)⟩

/-- C7: the snapshot resolver checks the og:image meta tag, then the
twitter:image meta tag, then an img with the snapshot class, then the first
img at all, in that strict order, returning the first truthy candidate
joined against the page URL and None when there is none; and the candidate
resolved by the page-scrape strategy is then fetched under the same success
criterion as a direct fetch — HTTP 200 and an image Content-Type. -/
theorem c7_snapshot_candidate_order :
    (∀ (uj : String → String → String) (doc : List Tag) (baseUrl : String),
      (∀ c, truthyAttr ((doc.find? isMetaOg).bind tagContent) = some c →
        resolveSnapshotFromHtml uj true doc baseUrl = some (uj baseUrl c)) ∧
      (truthyAttr ((doc.find? isMetaOg).bind tagContent) = none →
        ∀ c, truthyAttr ((doc.find? isMetaTw).bind tagContent) = some c →
        resolveSnapshotFromHtml uj true doc baseUrl = some (uj baseUrl c)) ∧
      (truthyAttr ((doc.find? isMetaOg).bind tagContent) = none →
        truthyAttr ((doc.find? isMetaTw).bind tagContent) = none →
        ∀ s, truthyAttr ((doc.find? isSnapImg).bind tagSrc) = some s →
        resolveSnapshotFromHtml uj true doc baseUrl = some (uj baseUrl s)) ∧
      (truthyAttr ((doc.find? isMetaOg).bind tagContent) = none →
        truthyAttr ((doc.find? isMetaTw).bind tagContent) = none →
        truthyAttr ((doc.find? isSnapImg).bind tagSrc) = none →
        ∀ s, truthyAttr ((doc.find? isImgTag).bind tagSrc) = some s →
        resolveSnapshotFromHtml uj true doc baseUrl = some (uj baseUrl s)) ∧
      (truthyAttr ((doc.find? isMetaOg).bind tagContent) = none →
        truthyAttr ((doc.find? isMetaTw).bind tagContent) = none →
        truthyAttr ((doc.find? isSnapImg).bind tagSrc) = none →
        truthyAttr ((doc.find? isImgTag).bind tagSrc) = none →
        resolveSnapshotFromHtml uj true doc baseUrl = none)) ∧
    (∀ (net : String → FetchOutcome) (uj : String → String → String)
      (haveBs4 : Bool) (url destBase : String) (r : Resp) (snapUrl : String)
      (r2 : Resp),
      net url = FetchOutcome.ok r →
      resolveSnapshotFromHtml uj haveBs4 r.doc url = some snapUrl →
      net snapUrl = FetchOutcome.ok r2 →
      (strContainsSub "text/html" (strLower r.contentType) = true ∨
        r.textNonempty = true) →
      (tryHtmlThenImage net uj haveBs4 url destBase =
          TryResult.saved (destBase ++ guessExtFromContentType r2.contentType) ↔
        (r2.status = 200 ∧ isImageContentType r2.contentType = true))) := by
  constructor
  · intro uj doc baseUrl
    refine ⟨?_, ?_, ?_, ?_, ?_⟩
    · intro c hc
      simp [resolveSnapshotFromHtml, hc]
    · intro h1 c hc
      simp [resolveSnapshotFromHtml, h1, hc]
    · intro h1 h2 s hs
      simp [resolveSnapshotFromHtml, h1, h2, hs]
    · intro h1 h2 h3 s hs
      simp [resolveSnapshotFromHtml, h1, h2, h3, hs]
    · intro h1 h2 h3 h4
      simp [resolveSnapshotFromHtml, h1, h2, h3, h4]
  · intro net uj haveBs4 url destBase r snapUrl r2 hnet hsnap hnet2 htext
    unfold tryHtmlThenImage
    rw [hnet]
    have hcond : (!(strContainsSub "text/html" (strLower r.contentType) ||
        strContainsSub "application/xhtml" (strLower r.contentType) ||
        strContainsSub "text/plain" (strLower r.contentType)) &&
        !r.textNonempty) = false := by
      rcases htext with h | h <;> simp [h]
    simp only [hcond, Bool.false_eq_true, if_false, hsnap, hnet2,
      streamDownload]
    by_cases hok : (r2.status == 200 && isImageContentType r2.contentType) = true
    · rw [if_pos hok]
      simp only [Bool.and_eq_true, beq_iff_eq] at hok
      simp [hok]
    · rw [if_neg hok]
      simp only [Bool.and_eq_true, beq_iff_eq, not_and_or] at hok
      constructor
      · intro h
        cases h
      · intro h
        rcases hok with hk | hk
        · exact absurd h.1 hk
        · exact absurd h.2 (by simpa using hk)

/-- C7 witness: a page whose og:image meta tag has an empty content falls
through to the twitter:image candidate; and a resolved snapshot fetched as a
200 PNG is saved with the .png extension by the page-scrape strategy. -/
theorem c7_witness :
    resolveSnapshotFromHtml (fun b c => b ++ c) true
      [Tag.meta (some "og:image") none (some ""),
        Tag.meta none (some "twitter:image") (some "T")] "B:" = some "B:T" ∧
    tryHtmlThenImage
      (fun u => if u == "P"
          then FetchOutcome.ok ⟨200, "text/html", [Tag.img none (some "S")], true⟩
        else if u == "S" then FetchOutcome.ok ⟨200, "image/png", [], false⟩
        else FetchOutcome.exc)
      (fun _ c => c) true "P" "img/01" = TryResult.saved "img/01.png" :=
  ⟨((c7_snapshot_candidate_order.1 (fun b c => b ++ c)
      [Tag.meta (some "og:image") none (some ""),
        Tag.meta none (some "twitter:image") (some "T")] "B:").2.1
      (by decide) "T" (by decide)).trans (by decide),
    (((c7_snapshot_candidate_order.2
      (fun u => if u == "P"
          then FetchOutcome.ok ⟨200, "text/html", [Tag.img none (some "S")], true⟩
        else if u == "S" then FetchOutcome.ok ⟨200, "image/png", [], false⟩
        else FetchOutcome.exc)
      (fun _ c => c) true "P" "img/01"
      ⟨200, "text/html", [Tag.img none (some "S")], true⟩ "S"
      ⟨200, "image/png", [], false⟩
      rfl (by decide) rfl (Or.inl (by decide))).mpr
      ⟨rfl, by decide⟩).trans (by rfl))⟩

end AVP
